import Mathlib

/-!
CorridorOS: verification of spec claims against the source.

Shallow embedding of the CorridorOS daemons and reference allocator:

* `DRF` — the `DRFScheduler` JavaScript class from `INTEGRATIONS.md`
  (two-pool lanes/bandwidth admission with partial best-effort grants).
* `Memqosd` — the Go FFM service from `daemon/memqosd/main.go`
  (allocation map, attestation gating, bandwidth / latency-class adjustment).
* `Attestd` — the Go attestation service from `daemon/attestd/main.go`
  (hash validation, trust-level derivation, ticket expiry).
* `Heliopass` — the Go calibration service (HELIOPASS), with the
  bounded exponential-decay convergence loop.

JavaScript numbers and Go float64 values are modelled as exact rationals
(`ℚ`) or reals (`ℝ`); Go `uint64` values are modelled as `ℕ`, with an
explicit `% 2 ^ 64` where wrap-around is reachable.  Wall-clock time is
passed in as an explicit parameter.  Randomness (`math/rand`) is modelled
as an injected stream `ℕ → ℝ` together with an explicit draw counter.
-/

namespace DRF

/-- A two-dimensional resource quantity (lanes, memory bandwidth in GB/s),
as used by `DRFScheduler` in `INTEGRATIONS.md`.  JS numbers become `ℚ`. -/
structure Grant where
  lanes : ℚ
  gbps  : ℚ
deriving DecidableEq, Repr

/-- One entry of the scheduler's `alloc` map (`id -> {lanes, gbps}`).
The fields `reqGbps` and `floorMet` are ghost bookkeeping: they record the
requested bandwidth floor and the `floorMet` verdict that `allocate`
returned for this grant.  They are written but never read by the
operations, so the scheduler's behaviour is exactly that of the source. -/
structure Entry where
  id       : String
  granted  : Grant
  reqGbps  : ℚ
  floorMet : Bool
deriving DecidableEq, Repr

/-- The `DRFScheduler` state: a capacity per pool and the allocation map,
modelled as an association list with unique keys (JS `Map` semantics). -/
structure Scheduler where
  capacity : Grant
  alloc    : List Entry
deriving DecidableEq, Repr

/-- Constructor `new DRFScheduler(capacity)` with an empty allocation map. -/
def Scheduler.init (capLanes capGbps : ℚ) : Scheduler :=
  ⟨⟨capLanes, capGbps⟩, []⟩

/-- Part of `_used()`: summed granted lanes over the allocation map. -/
def usedLanes (l : List Entry) : ℚ :=
  (l.map (fun e => e.granted.lanes)).sum

/-- Part of `_used()`: summed granted bandwidth over the allocation map. -/
def usedGbps (l : List Entry) : ℚ :=
  (l.map (fun e => e.granted.gbps)).sum

/-- Method `dominantShare(req)`: the larger of the two per-pool shares, with the
source's `Math.max(1, capacity)` guard against a zero denominator. -/
def dominantShare (s : Scheduler) (req : Grant) : ℚ :=
  max (req.lanes / max 1 s.capacity.lanes) (req.gbps / max 1 s.capacity.gbps)

/-- Method `canFit(req)`: granting in full keeps both pools within capacity. -/
def canFit (s : Scheduler) (req : Grant) : Bool :=
  decide (usedLanes s.alloc + req.lanes ≤ s.capacity.lanes) &&
  decide (usedGbps s.alloc + req.gbps ≤ s.capacity.gbps)

/-- JS `Map.set`: replace any existing binding of `id`, keeping keys
unique.  Order of the surviving entries is irrelevant to all sums. -/
def mapSet (id : String) (e : Entry) (l : List Entry) : List Entry :=
  e :: l.filter (fun p => p.id ≠ id)

/-- Partial-grant lane amount of the non-fitting branch of `allocate`:
`Math.max(0, Math.min(req.lanes, capacity.lanes - used.lanes))`. -/
def partialGL (s : Scheduler) (req : Grant) : ℚ :=
  max 0 (min req.lanes (s.capacity.lanes - usedLanes s.alloc))

/-- Partial-grant bandwidth amount of the non-fitting branch of
`allocate`: `Math.max(0, Math.min(req.gbps, capacity.gbps - used.gbps))`. -/
def partialGB (s : Scheduler) (req : Grant) : ℚ :=
  max 0 (min req.gbps (s.capacity.gbps - usedGbps s.alloc))

/-- The `floorMet` verdict of the partial-grant branch:
`granted.gbps >= req.gbps && granted.lanes >= req.lanes`. -/
def partialFM (s : Scheduler) (req : Grant) : Bool :=
  decide (partialGB s req ≥ req.gbps) && decide (partialGL s req ≥ req.lanes)

/-- Method `allocate(id, req)` from `INTEGRATIONS.md`: grant in full when the
request fits, otherwise grant the per-pool maximum feasible amount
(floored at zero) and report `floorMet` accordingly. -/
def allocate (s : Scheduler) (id : String) (req : Grant) :
    (Grant × Bool) × Scheduler :=
  if canFit s req then
    ((req, true),
     { s with alloc := mapSet id ⟨id, req, req.gbps, true⟩ s.alloc })
  else
    ((⟨partialGL s req, partialGB s req⟩, partialFM s req),
     { s with alloc :=
        mapSet id ⟨id, ⟨partialGL s req, partialGB s req⟩, req.gbps,
          partialFM s req⟩ s.alloc })

/-- Method `release(id)`: JS `Map.delete`. -/
def release (s : Scheduler) (id : String) : Scheduler :=
  { s with alloc := s.alloc.filter (fun p => p.id ≠ id) }

/-- An operation of the allocate/release interface. -/
inductive Op where
  | alloc (id : String) (lanes gbps : ℚ)
  | release (id : String)
deriving DecidableEq, Repr

/-- Run one operation (the grant/floorMet result is discarded). -/
def runOp (s : Scheduler) : Op → Scheduler
  | .alloc id lanes gbps => (allocate s id ⟨lanes, gbps⟩).2
  | .release id => release s id

/-- Run a sequence of operations from a given state. -/
def runOps (s : Scheduler) (ops : List Op) : Scheduler :=
  ops.foldl runOp s

/-- A request with non-negative lanes and bandwidth (floors are amounts). -/
def opNonneg : Op → Bool
  | .alloc _ lanes gbps => decide (0 ≤ lanes) && decide (0 ≤ gbps)
  | .release _ => true

/-- Sum of the recorded bandwidth floors of the active grants whose floor
was met (i.e. the grants not in best-effort mode). -/
def floorSumGbps (l : List Entry) : ℚ :=
  (l.map (fun e => if e.floorMet then e.reqGbps else 0)).sum

/-- Per-entry facts maintained by every operation: granted amounts and
recorded floors are non-negative, and a `floorMet` entry's granted
bandwidth equals its recorded floor. -/
def EntryOk (e : Entry) : Prop :=
  0 ≤ e.granted.lanes ∧ 0 ≤ e.granted.gbps ∧ 0 ≤ e.reqGbps ∧
    (e.floorMet = true → e.granted.gbps = e.reqGbps)

/-- The scheduler invariant: entries are well-formed and cumulative
granted usage stays within each pool's capacity. -/
def Inv (s : Scheduler) : Prop :=
  (∀ e ∈ s.alloc, EntryOk e) ∧
    usedLanes s.alloc ≤ s.capacity.lanes ∧
    usedGbps s.alloc ≤ s.capacity.gbps

/-- Modelled from the spec: the floor-mandatory admission path.  No code
under `src/` implements it — `DRFScheduler.allocate` always stores a
partial grant when the request does not fit, and no `CapacityExceeded`
error value exists in the sources; spec §4.3 item 2 and §7 specify that a
request flagged floor-mandatory whose full grant does not fit is rejected
with `CapacityExceeded` and rolled back atomically (pool state unchanged),
while an unflagged request takes the partial best-effort path. -/
def allocateFloorMandatory (s : Scheduler) (id : String) (req : Grant)
    (floorMandatory : Bool) :
    Except String ((Grant × Bool) × Scheduler) × Scheduler :=
  if canFit s req then
    let r := allocate s id req
    (.ok r, r.2)
  else if floorMandatory then
    (.error "CapacityExceeded", s)
  else
    let r := allocate s id req
    (.ok r, r.2)

end DRF

namespace Attestd

/-- Struct `AttestationRequest` from `daemon/attestd/main.go`. -/
structure AttestationRequest where
  deviceID     : String
  deviceType   : String
  firmwareHash : String
  configHash   : String
  requirePQC   : Bool
deriving DecidableEq, Repr

/-- Struct `AttestationResult` from `daemon/attestd/main.go`.  `time.Time`
values are modelled as `ℕ` nanosecond timestamps. -/
structure AttestationResult where
  deviceID      : String
  attestationID : String
  valid         : Bool
  trustLevel    : String
  firmwareValid : Bool
  configValid   : Bool
  pqcSignature  : String
  issuedAt      : ℕ
  expiresAt     : ℕ
deriving DecidableEq, Repr

/-- The mutable part of `AttestationService` the claims touch: the
`attestations` map (as a unique-key association list) and `nextID`. -/
structure Service where
  attestations : List (String × AttestationResult)
  nextID       : ℕ
deriving DecidableEq, Repr

/-- The all-zero hash string rejected by both validators. -/
def zeros64 : String :=
  "0000000000000000000000000000000000000000000000000000000000000000"

/-- The `knownHashes` list in `validateFirmwareHash`. -/
def knownHashes : List String :=
  ["e3b0c44298fc1c149afbf4c8996fb92427ae41e4649b934ca495991b7852b855",
   "2c26b46b68ffc68ff99b453c1d30413413422d706483bfa0f98a5e886266e7ae",
   "ba7816bf8f01cfea414140de5dae2223b00361a396177a9cb410ff61f20015ad"]

/-- Validator `validateFirmwareHash`: accepted if on the known list, else if it is
64 characters long and not the all-zero string. -/
def validateFirmwareHash (hash : String) : Bool :=
  hash ∈ knownHashes || (hash.length == 64 && hash != zeros64)

/-- Validator `validateConfigHash`: 64 characters and not the all-zero string. -/
def validateConfigHash (hash : String) : Bool :=
  hash.length == 64 && hash != zeros64

/-- Method `determineTrustLevel` from `daemon/attestd/main.go`. -/
def determineTrustLevel (firmwareValid configValid pqcRequired : Bool) :
    String :=
  if firmwareValid && configValid then
    if pqcRequired then "high" else "medium"
  else if firmwareValid || configValid then "low"
  else "untrusted"

/-- Duration 24 hours in nanoseconds (Go durations are nanoseconds). -/
def day : ℕ := 24 * 60 * 60 * 1000000000

/-- Method `AttestDevice`.  `hashHex` abstracts `sha256` + hex encoding (its
output is only ever concatenated after the literal `"pqc-sig-"`), and
`now` is the sampled `time.Now()`. -/
def attestDevice (hashHex : String → String) (now : ℕ) (s : Service)
    (req : AttestationRequest) : AttestationResult × Service :=
  let attestationID := "attest-" ++ toString s.nextID
  let firmwareValid := validateFirmwareHash req.firmwareHash
  let configValid := validateConfigHash req.configHash
  let trustLevel := determineTrustLevel firmwareValid configValid req.requirePQC
  let pqcSignature :=
    if req.requirePQC then
      "pqc-sig-" ++ hashHex (attestationID ++ "pqc-salt")
    else ""
  let result : AttestationResult :=
    { deviceID := req.deviceID
      attestationID := attestationID
      valid := firmwareValid && configValid
      trustLevel := trustLevel
      firmwareValid := firmwareValid
      configValid := configValid
      pqcSignature := pqcSignature
      issuedAt := now
      expiresAt := now + day }
  (result,
   { attestations := (attestationID, result) ::
       s.attestations.filter (fun p => p.1 ≠ attestationID)
     nextID := s.nextID + 1 })

/-- Method `GetAttestation`: look the ticket up and clear `Valid` when the
current time is strictly after `ExpiresAt` (Go `time.Now().After`). -/
def getAttestation (now : ℕ) (tickets : List (String × AttestationResult))
    (attestationID : String) : Option AttestationResult :=
  match tickets.lookup attestationID with
  | none => none
  | some r => some (if r.expiresAt < now then { r with valid := false } else r)

end Attestd

namespace Memqosd

/-- Struct `FFMHandle` from `daemon/memqosd/main.go`.  `uint64` fields are `ℕ`,
`float64` fields are `ℚ`, timestamps are `ℕ`. -/
structure FFMHandle where
  id                : String
  bytes             : ℕ
  latencyClass      : String
  bandwidthFloor    : ℕ
  persistence       : String
  shareable         : Bool
  securityDomain    : String
  createdAt         : ℕ
  policyLeaseTTL    : ℕ
  fileDescriptors   : List String
  achievedBandwidth : ℕ
  movedPages        : ℕ
  tailP99Ms         : ℚ
  attestationTicket : String
deriving DecidableEq, Repr

/-- Struct `AllocationRequest` from `daemon/memqosd/main.go`. -/
structure AllocationRequest where
  bytes               : ℕ
  latencyClass        : String
  bandwidthFloor      : ℕ
  persistence         : String
  shareable           : Bool
  securityDomain      : String
  attestationRequired : Bool
  attestationTicket   : String
deriving DecidableEq, Repr

/-- The mutable `FFMService` state: the `allocations` map (unique-key
association list) and `nextID` (Prometheus metrics are not modelled). -/
structure Service where
  allocations : List (String × FFMHandle)
  nextID      : ℕ
deriving DecidableEq, Repr

/-- The empty service created by `NewFFMService` (`nextID = 1`). -/
def Service.init : Service := ⟨[], 1⟩

/-- Formatter `fmt.Sprintf("%04x", n)`: lowercase hex, zero-padded to width 4. -/
def hex4 (n : ℕ) : String :=
  let ds := Nat.toDigits 16 n
  String.mk (List.replicate (4 - ds.length) '0') ++ String.mk ds

/-- Conversion `uint64(float64(floor) * 0.9)`: for floors below `10^15` the float64
computation truncates to exactly `9 * floor / 10` (the rounding error of
the product is far below the distance to the next integer), so the
simulated 90 % achievement is modelled by natural floor division. -/
def achieved90 (floor : ℕ) : ℕ := 9 * floor / 10

/-- Function `verifyAttestation` in `daemon/memqosd/main.go`: an HTTP GET against
attestd's `GetAttestation`; a missing ticket surfaces as a non-200 status
(`HTTP 404`), a found ticket yields its (expiry-adjusted) `valid` bit. -/
def verifyAttestation (tickets : List (String × Attestd.AttestationResult))
    (now : ℕ) (ticket : String) : Except String Bool :=
  match Attestd.getAttestation now tickets ticket with
  | none => .error "HTTP 404"
  | some r => .ok r.valid

/-- The handle built by `FFMService.Allocate` (the `handle := &FFMHandle{...}`
literal): id from the pre-increment `nextID`, file descriptor from the
post-increment one, 90 % simulated achievement, fixed TTL and tail
latency. -/
def allocHandle (now : ℕ) (s : Service) (req : AllocationRequest) : FFMHandle :=
  { id := "ffm-" ++ hex4 s.nextID
    bytes := req.bytes
    latencyClass := req.latencyClass
    bandwidthFloor := req.bandwidthFloor
    persistence := req.persistence
    shareable := req.shareable
    securityDomain := req.securityDomain
    createdAt := now
    policyLeaseTTL := 3600
    fileDescriptors := ["/proc/12345/fd/" ++ toString (s.nextID + 1)]
    achievedBandwidth := achieved90 req.bandwidthFloor
    movedPages := 0
    tailP99Ms := (21 : ℚ) / 10
    attestationTicket := req.attestationTicket }

/-- The `// Enforce attestation when requested` block at the top of
`FFMService.Allocate`; each `return nil, err` of the Go code is an
`error` that aborts the allocation. -/
def attestGate (tickets : List (String × Attestd.AttestationResult))
    (now : ℕ) (req : AllocationRequest) : Except String Unit :=
  if req.attestationRequired then
    if req.attestationTicket = "" then
      .error "attestation required but no ticket provided"
    else
      match verifyAttestation tickets now req.attestationTicket with
      | .error e => .error ("attestation verification failed: " ++ e)
      | .ok ok =>
          if !ok then .error "attestation ticket invalid or expired"
          else .ok ()
  else .ok ()

/-- Method `FFMService.Allocate`: enforce attestation when requested, then
generate an id, build the handle, and record it.  `tickets`/`now` stand
for the attestd store and the sampled wall clock. -/
def allocate (tickets : List (String × Attestd.AttestationResult))
    (now : ℕ) (s : Service) (req : AllocationRequest) :
    Except String (FFMHandle × Service) :=
  match attestGate tickets now req with
  | .error e => .error e
  | .ok _ =>
      let id := "ffm-" ++ hex4 s.nextID
      let handle := allocHandle now s req
      .ok (handle,
        { allocations := (id, handle) ::
            s.allocations.filter (fun p => p.1 ≠ id)
          nextID := s.nextID + 1 })

/-- Method `FFMService.AdjustBandwidth`: update the floor and the simulated
achieved bandwidth of an existing allocation. -/
def adjustBandwidth (s : Service) (id : String) (floorGBs : ℕ) :
    Except String Service :=
  match s.allocations.lookup id with
  | none => .error ("allocation " ++ id ++ " not found")
  | some handle =>
      .ok { s with allocations :=
        (id, { handle with
                 bandwidthFloor := floorGBs
                 achievedBandwidth := achieved90 floorGBs }) ::
          s.allocations.filter (fun p => p.1 ≠ id) }

/-- Method `FFMService.AdjustLatencyClass`: migrate an existing allocation in
place — set the class, bump the moved-page counter (uint64 wrap-around
made explicit). -/
def adjustLatencyClass (s : Service) (id : String) (target : String) :
    Except String Service :=
  match s.allocations.lookup id with
  | none => .error ("allocation " ++ id ++ " not found")
  | some handle =>
      .ok { s with allocations :=
        (id, { handle with
                 latencyClass := target
                 movedPages := (handle.movedPages + 1000000) % 2 ^ 64 }) ::
          s.allocations.filter (fun p => p.1 ≠ id) }

end Memqosd

namespace Heliopass

/-- Struct `CalibrationRequest` from the HELIOPASS service source
(`unnamed/part_009`); float64 fields become `ℝ`, the `int` lane count a
`ℕ` (the Go code builds slices of that length). -/
structure CalibrationRequest where
  corridorID       : String
  targetBER        : ℝ
  ambientProfile   : String
  currentBER       : ℝ
  currentEyeMargin : ℝ
  temperature      : ℝ
  lambdaCount      : ℕ

/-- Struct `CalibrationResponse` from the HELIOPASS service source. -/
structure CalibrationResponse where
  status            : String
  converged         : Bool
  biasVoltages      : List ℝ
  lambdaShifts      : List ℝ
  laserPowerAdjust  : List ℝ
  convergenceTimeMs : ℕ
  finalBER          : ℝ
  finalEyeMargin    : ℝ
  powerSavings      : ℝ

/-- Struct `AmbientProfile` from the HELIOPASS service source. -/
structure AmbientProfile where
  name           : String
  temperature    : ℝ
  humidity       : ℝ
  vibrationRMS   : ℝ
  emiNoise       : ℝ
  driftRate      : ℝ
  stabilityClass : String

/-- The `lab_default` ambient profile. -/
noncomputable def labDefault : AmbientProfile :=
  ⟨"Laboratory Default", 22.0, 45.0, 0.1, -80.0, 0.001, "excellent"⟩

/-- The four built-in profiles installed by `NewHELIOPASSService`. -/
noncomputable def profiles : List (String × AmbientProfile) :=
  [("lab_default", labDefault),
   ("field_noise_low",
    ⟨"Field Low Noise", 25.0, 60.0, 1.0, -70.0, 0.01, "good"⟩),
   ("field_noise_high",
    ⟨"Field High Noise", 30.0, 80.0, 5.0, -60.0, 0.1, "fair"⟩),
   ("datacenter",
    ⟨"Data Center", 24.0, 50.0, 0.5, -75.0, 0.005, "excellent"⟩)]

/-- One BER update of the convergence loop, iteration number `i`:
`currentBER ← targetBER + (currentBER − targetBER) · e^(−i·0.2)`. -/
noncomputable def berStep (targetBER currentBER : ℝ) (i : ℕ) : ℝ :=
  targetBER + (currentBER - targetBER) * Real.exp (-(i : ℝ) * 0.2)

/-- State carried by the convergence loop: the current BER, the
`converged` flag, the iteration counter, the bias-voltage slice, and the
position in the injected random stream. -/
structure LoopState where
  ber        : ℝ
  converged  : Bool
  iterations : ℕ
  bias       : List ℝ
  rngIdx     : ℕ

open Classical in
/-- The `for !converged && iterations < maxIterations` loop of
`HELIOPASSService.Calibrate`, with fuel `maxIterations − iterations`:
bump the counter, apply `berStep`, declare convergence at
`currentBER ≤ targetBER · 1.1`, and with probability 0.1 (one random
draw, `< 0.1`) perturb every bias voltage by `(draw − 0.5) · 0.01`. -/
noncomputable def calLoop (rng : ℕ → ℝ) (targetBER : ℝ) :
    ℕ → ℝ → Bool → ℕ → List ℝ → ℕ → LoopState
  | 0, ber, conv, iters, bias, k => ⟨ber, conv, iters, bias, k⟩
  | fuel + 1, ber, conv, iters, bias, k =>
      if conv then ⟨ber, conv, iters, bias, k⟩
      else
        let i := iters + 1
        let ber2 := berStep targetBER ber i
        let conv2 : Bool := if ber2 ≤ targetBER * 1.1 then true else false
        if rng k < 0.1 then
          calLoop rng targetBER fuel ber2 conv2 i
            (bias.mapIdx (fun j v => v + (rng (k + 1 + j) - 0.5) * 0.01))
            (k + 1 + bias.length)
        else
          calLoop rng targetBER fuel ber2 conv2 i bias (k + 1)

open Classical in
/-- Method `HELIOPASSService.Calibrate`.  `rng` is the `math/rand` stream,
`elapsedNs` the wall-clock duration sampled by `time.Since(start)` (the
convergence time reported and fed into the drift factor).  Unknown
ambient profiles are rejected; otherwise bias voltages, wavelength
shifts and laser power adjustments are drawn, the convergence loop runs
with a budget of 20 iterations, and profile drift / temperature factors
scale the outputs. -/
noncomputable def calibrate (rng : ℕ → ℝ) (elapsedNs : ℕ)
    (req : CalibrationRequest) : Except String CalibrationResponse :=
  match profiles.lookup req.ambientProfile with
  | none => .error ("unknown ambient profile: " ++ req.ambientProfile)
  | some profile =>
      let lambdaCount := if req.lambdaCount = 0 then 8 else req.lambdaCount
      let biasVoltages := (List.range lambdaCount).map
        (fun j => 1.2 + (rng j - 0.5) * 0.2)
      let lambdaShifts := (List.range lambdaCount).map
        (fun j => (rng (lambdaCount + j) - 0.5) * 0.02)
      let laserPowerAdjust := (List.range lambdaCount).map
        (fun j => (rng (2 * lambdaCount + j) - 0.5) * 0.5)
      let r := calLoop rng req.targetBER 20 req.currentBER false 0
        biasVoltages (3 * lambdaCount)
      let finalEyeMargin := 0.8 + rng r.rngIdx * 0.4
      let powerSavings := rng (r.rngIdx + 1) * 15.0
      let driftFactor := 1.0 + profile.driftRate * ((elapsedNs : ℝ) / 3600000000000)
      let tempFactor := 1.0 + (req.temperature - profile.temperature) * 0.001
      let status := if r.converged then "converged" else "partial_convergence"
      .ok
        { status := status
          converged := r.converged
          biasVoltages := r.bias.map (fun v => v * tempFactor)
          lambdaShifts := lambdaShifts.map (fun v => v * driftFactor)
          laserPowerAdjust := laserPowerAdjust
          convergenceTimeMs := elapsedNs / 1000000
          finalBER := r.ber
          finalEyeMargin := finalEyeMargin
          powerSavings := powerSavings }

/-- The BER-only projection of the convergence loop, used to state that
the BER trajectory ignores the random stream and the bias slice. -/
noncomputable def berLoop (targetBER : ℝ) :
    ℕ → ℝ → Bool → ℕ → ℝ × Bool × ℕ
  | 0, ber, conv, iters => (ber, conv, iters)
  | fuel + 1, ber, conv, iters =>
      if conv then (ber, conv, iters)
      else
        let ber2 := berStep targetBER ber (iters + 1)
        berLoop targetBER fuel ber2
          (if ber2 ≤ targetBER * 1.1 then true else false) (iters + 1)

/-- Sum `iters + (iters+1) + ... `: the sum of the iteration numbers of
`fuel` consecutive loop iterations starting after `iters`. -/
def triSum (iters fuel : ℕ) : ℕ :=
  match fuel with
  | 0 => 0
  | fuel + 1 => (iters + 1) + triSum (iters + 1) fuel

/-- The rng-independent components of a loop state: the BER value, the
`converged` flag, and the iteration counter. -/
def berProj (r : LoopState) : ℝ × Bool × ℕ :=
  (r.ber, r.converged, r.iterations)

/-- Whether a calibrate result is a normal (non-error) response. -/
def respIsOk : Except String CalibrationResponse → Bool
  | .ok _ => true
  | .error _ => false

/-- The `status` of a normal calibrate response (`""` on error). -/
def respStatus : Except String CalibrationResponse → String
  | .ok r => r.status
  | .error _ => ""

/-- The `converged` flag of a normal calibrate response. -/
def respConverged : Except String CalibrationResponse → Bool
  | .ok r => r.converged
  | .error _ => false

/-- The `finalBER` of a normal calibrate response (`0` on error). -/
noncomputable def respFinalBER : Except String CalibrationResponse → ℝ
  | .ok r => r.finalBER
  | .error _ => 0

/-- Scenario 3 of the spec: `targetBER = 1e-12`, `currentBER = 1e-9`,
`lab_default` profile, 8 lanes. -/
noncomputable def scenario3Req : CalibrationRequest :=
  { corridorID := "corridor-001"
    targetBER := 1e-12
    ambientProfile := "lab_default"
    currentBER := 1e-9
    currentEyeMargin := 0.9
    temperature := 22.0
    lambdaCount := 8 }

/-- A request whose target BER `0` can never be met (any positive BER
stays positive), exhausting the 20-iteration budget. -/
noncomputable def zeroTargetReq : CalibrationRequest :=
  { corridorID := "corridor-002"
    targetBER := 0
    ambientProfile := "lab_default"
    currentBER := 1
    currentEyeMargin := 0.9
    temperature := 22.0
    lambdaCount := 8 }

end Heliopass

namespace Fixtures

/-- A concrete allocation request with no attestation requirement. -/
def sampleReq : Memqosd.AllocationRequest :=
  { bytes := 1024
    latencyClass := "T2"
    bandwidthFloor := 10
    persistence := "none"
    shareable := false
    securityDomain := "tenantA"
    attestationRequired := false
    attestationTicket := "" }

/-- The handle `Allocate` produces for `sampleReq` on a fresh service at
time 0. -/
def sampleHandle : Memqosd.FFMHandle :=
  { id := "ffm-0001"
    bytes := 1024
    latencyClass := "T2"
    bandwidthFloor := 10
    persistence := "none"
    shareable := false
    securityDomain := "tenantA"
    createdAt := 0
    policyLeaseTTL := 3600
    fileDescriptors := ["/proc/12345/fd/2"]
    achievedBandwidth := 9
    movedPages := 0
    tailP99Ms := (21 : ℚ) / 10
    attestationTicket := "" }

/-- A service holding exactly the allocation `sampleHandle`. -/
def svc1 : Memqosd.Service := ⟨[("ffm-0001", sampleHandle)], 2⟩

/-- A valid attestation ticket expiring at time 100. -/
def expiryTicket : Attestd.AttestationResult :=
  { deviceID := "cxl-dev-001"
    attestationID := "t1"
    valid := true
    trustLevel := "medium"
    firmwareValid := true
    configValid := true
    pqcSignature := ""
    issuedAt := 0
    expiresAt := 100 }

/-- A concrete allocation request that requires attestation with ticket
`t1`. -/
def attReq : Memqosd.AllocationRequest :=
  { bytes := 4096
    latencyClass := "T2"
    bandwidthFloor := 10
    persistence := "none"
    shareable := false
    securityDomain := "tenantA"
    attestationRequired := true
    attestationTicket := "t1" }

/-- The handle `Allocate` produces for `attReq` on a fresh service at
time 100. -/
def attHandle : Memqosd.FFMHandle :=
  { id := "ffm-0001"
    bytes := 4096
    latencyClass := "T2"
    bandwidthFloor := 10
    persistence := "none"
    shareable := false
    securityDomain := "tenantA"
    createdAt := 100
    policyLeaseTTL := 3600
    fileDescriptors := ["/proc/12345/fd/2"]
    achievedBandwidth := 9
    movedPages := 0
    tailP99Ms := (21 : ℚ) / 10
    attestationTicket := "t1" }

end Fixtures

namespace DRF

theorem sum_map_filter_le (f : Entry → ℚ) (l : List Entry) (p : Entry → Bool)
    (h : ∀ e ∈ l, 0 ≤ f e) :
    ((l.filter p).map f).sum ≤ (l.map f).sum := by
  induction l with
  | nil => simp
  | cons e l ih =>
      have he : 0 ≤ f e := h e (List.mem_cons_self e l)
      have ih' := ih (fun e' he' => h e' (List.mem_cons_of_mem e he'))
      by_cases hp : p e
      · simpa [List.filter_cons, hp] using add_le_add_left ih' (f e)
      · simp only [List.filter_cons, hp, Bool.false_eq_true, if_false,
          List.map_cons, List.sum_cons]
        calc ((l.filter p).map f).sum ≤ (l.map f).sum := ih'
        _ ≤ f e + (l.map f).sum := le_add_of_nonneg_left he

theorem usedGbps_filter_le (l : List Entry) (p : Entry → Bool)
    (h : ∀ e ∈ l, EntryOk e) :
    usedGbps (l.filter p) ≤ usedGbps l :=
  sum_map_filter_le _ l p (fun e he => (h e he).2.1)

theorem usedLanes_filter_le (l : List Entry) (p : Entry → Bool)
    (h : ∀ e ∈ l, EntryOk e) :
    usedLanes (l.filter p) ≤ usedLanes l :=
  sum_map_filter_le _ l p (fun e he => (h e he).1)

theorem canFit_true (s : Scheduler) (req : Grant) (h : canFit s req = true) :
    usedLanes s.alloc + req.lanes ≤ s.capacity.lanes ∧
      usedGbps s.alloc + req.gbps ≤ s.capacity.gbps := by
  simpa [canFit] using h

theorem usedLanes_cons (e : Entry) (l : List Entry) :
    usedLanes (e :: l) = e.granted.lanes + usedLanes l := by
  simp [usedLanes]

theorem usedGbps_cons (e : Entry) (l : List Entry) :
    usedGbps (e :: l) = e.granted.gbps + usedGbps l := by
  simp [usedGbps]

theorem allocate_fit (s : Scheduler) (id : String) (req : Grant)
    (h : canFit s req = true) :
    allocate s id req =
      ((req, true),
       { s with alloc := mapSet id ⟨id, req, req.gbps, true⟩ s.alloc }) := by
  simp [allocate, h]

theorem allocate_nofit (s : Scheduler) (id : String) (req : Grant)
    (h : canFit s req = false) :
    allocate s id req =
      ((⟨partialGL s req, partialGB s req⟩, partialFM s req),
       { s with alloc :=
          mapSet id ⟨id, ⟨partialGL s req, partialGB s req⟩, req.gbps,
            partialFM s req⟩ s.alloc }) := by
  simp [allocate, h]

theorem allocate_capacity (s : Scheduler) (id : String) (req : Grant) :
    (allocate s id req).2.capacity = s.capacity := by
  unfold allocate
  split <;> rfl

theorem partialGL_nonneg (s : Scheduler) (req : Grant) :
    0 ≤ partialGL s req := le_max_left 0 _

theorem partialGB_nonneg (s : Scheduler) (req : Grant) :
    0 ≤ partialGB s req := le_max_left 0 _

theorem partialGL_le (s : Scheduler) (req : Grant) (hl : 0 ≤ req.lanes)
    (h : usedLanes s.alloc ≤ s.capacity.lanes) :
    partialGL s req ≤ s.capacity.lanes - usedLanes s.alloc := by
  unfold partialGL
  have h0 : (0 : ℚ) ≤ s.capacity.lanes - usedLanes s.alloc := by linarith
  rw [max_eq_right (le_min hl h0)]
  exact min_le_right _ _

theorem partialGB_le (s : Scheduler) (req : Grant) (hb : 0 ≤ req.gbps)
    (h : usedGbps s.alloc ≤ s.capacity.gbps) :
    partialGB s req ≤ s.capacity.gbps - usedGbps s.alloc := by
  unfold partialGB
  have h0 : (0 : ℚ) ≤ s.capacity.gbps - usedGbps s.alloc := by linarith
  rw [max_eq_right (le_min hb h0)]
  exact min_le_right _ _

theorem partialGB_le_req (s : Scheduler) (req : Grant) (hb : 0 ≤ req.gbps)
    (h : usedGbps s.alloc ≤ s.capacity.gbps) :
    partialGB s req ≤ req.gbps := by
  unfold partialGB
  have h0 : (0 : ℚ) ≤ s.capacity.gbps - usedGbps s.alloc := by linarith
  rw [max_eq_right (le_min hb h0)]
  exact min_le_left _ _

theorem partialFM_gbps (s : Scheduler) (req : Grant) (hb : 0 ≤ req.gbps)
    (h : usedGbps s.alloc ≤ s.capacity.gbps)
    (hfm : partialFM s req = true) : partialGB s req = req.gbps := by
  have h1 := (Bool.and_eq_true_iff.mp hfm).1
  exact le_antisymm (partialGB_le_req s req hb h) (of_decide_eq_true h1)

theorem allocate_preserves (s : Scheduler) (id : String) (req : Grant)
    (h : Inv s) (hl : 0 ≤ req.lanes) (hb : 0 ≤ req.gbps) :
    Inv (allocate s id req).2 := by
  obtain ⟨hok, hL, hB⟩ := h
  have hfL := usedLanes_filter_le s.alloc (fun p => p.id ≠ id) hok
  have hfB := usedGbps_filter_le s.alloc (fun p => p.id ≠ id) hok
  by_cases hfit : canFit s req = true
  · obtain ⟨hfl, hfb⟩ := canFit_true s req hfit
    rw [allocate_fit s id req hfit]
    refine ⟨?_, ?_, ?_⟩
    · intro e he
      rcases List.mem_cons.mp he with rfl | he'
      · exact ⟨hl, hb, hb, fun _ => rfl⟩
      · exact hok e (List.mem_of_mem_filter he')
    · show usedLanes (mapSet id ⟨id, req, req.gbps, true⟩ s.alloc) ≤ s.capacity.lanes
      rw [mapSet, usedLanes_cons]
      show req.lanes + usedLanes (s.alloc.filter (fun p => p.id ≠ id)) ≤ s.capacity.lanes
      linarith
    · show usedGbps (mapSet id ⟨id, req, req.gbps, true⟩ s.alloc) ≤ s.capacity.gbps
      rw [mapSet, usedGbps_cons]
      show req.gbps + usedGbps (s.alloc.filter (fun p => p.id ≠ id)) ≤ s.capacity.gbps
      linarith
  · have hfit' : canFit s req = false := by
      cases hc : canFit s req with
      | false => rfl
      | true => exact absurd hc hfit
    rw [allocate_nofit s id req hfit']
    have hgL := partialGL_le s req hl hL
    have hgB := partialGB_le s req hb hB
    refine ⟨?_, ?_, ?_⟩
    · intro e he
      rcases List.mem_cons.mp he with rfl | he'
      · exact ⟨partialGL_nonneg s req, partialGB_nonneg s req, hb,
          fun hfm => partialFM_gbps s req hb hB hfm⟩
      · exact hok e (List.mem_of_mem_filter he')
    · show usedLanes (mapSet id _ s.alloc) ≤ s.capacity.lanes
      rw [mapSet, usedLanes_cons]
      show partialGL s req + usedLanes (s.alloc.filter (fun p => p.id ≠ id))
          ≤ s.capacity.lanes
      linarith
    · show usedGbps (mapSet id _ s.alloc) ≤ s.capacity.gbps
      rw [mapSet, usedGbps_cons]
      show partialGB s req + usedGbps (s.alloc.filter (fun p => p.id ≠ id))
          ≤ s.capacity.gbps
      linarith

theorem release_preserves (s : Scheduler) (id : String) (h : Inv s) :
    Inv (release s id) := by
  obtain ⟨hok, hL, hB⟩ := h
  refine ⟨fun e he => hok e (List.mem_of_mem_filter he), ?_, ?_⟩
  · exact le_trans (usedLanes_filter_le s.alloc _ hok) hL
  · exact le_trans (usedGbps_filter_le s.alloc _ hok) hB

theorem runOp_preserves (s : Scheduler) (op : Op) (h : Inv s)
    (hop : opNonneg op = true) : Inv (runOp s op) := by
  cases op with
  | alloc id lanes gbps =>
      have h' : 0 ≤ lanes ∧ 0 ≤ gbps := by simpa [opNonneg] using hop
      exact allocate_preserves s id ⟨lanes, gbps⟩ h h'.1 h'.2
  | release id => exact release_preserves s id h

theorem runOp_capacity (s : Scheduler) (op : Op) :
    (runOp s op).capacity = s.capacity := by
  cases op with
  | alloc id lanes gbps => exact allocate_capacity s id ⟨lanes, gbps⟩
  | release id => rfl

theorem runOps_preserves (ops : List Op) :
    ∀ s : Scheduler, Inv s → ops.all opNonneg = true → Inv (runOps s ops) := by
  induction ops with
  | nil => intro s h _; exact h
  | cons op ops ih =>
      intro s h hall
      rw [List.all_cons, Bool.and_eq_true] at hall
      exact ih (runOp s op) (runOp_preserves s op h hall.1) hall.2

theorem runOps_capacity (ops : List Op) :
    ∀ s : Scheduler, (runOps s ops).capacity = s.capacity := by
  induction ops with
  | nil => intro s; rfl
  | cons op ops ih =>
      intro s
      calc (runOps (runOp s op) ops).capacity = (runOp s op).capacity := ih _
        _ = s.capacity := runOp_capacity s op

theorem floorSum_le_usedGbps (l : List Entry) (h : ∀ e ∈ l, EntryOk e) :
    floorSumGbps l ≤ usedGbps l := by
  induction l with
  | nil => simp [floorSumGbps, usedGbps]
  | cons e l ih =>
      have he := h e (List.mem_cons_self e l)
      have ih' := ih (fun e' he' => h e' (List.mem_cons_of_mem e he'))
      simp only [floorSumGbps, usedGbps, List.map_cons, List.sum_cons] at ih' ⊢
      by_cases hfm : e.floorMet = true
      · rw [if_pos hfm, ← he.2.2.2 hfm]
        exact add_le_add_left ih' _
      · rw [if_neg hfm]
        have := he.2.1
        linarith

end DRF

/-- C1: for every sequence of Allocate/Release operations (with
non-negative requested amounts) against a pool of provisioned lane
capacity `capL` and bandwidth capacity `capB`, the sum of the bandwidth
floors of the active grants whose floor was met (i.e. not granted in
best-effort mode) never exceeds `capB` — and the cumulative granted
usage of each pool never exceeds that pool's capacity. -/
theorem C1_pool_floor_invariant (capL capB : ℚ) (ops : List DRF.Op)
    (hL : 0 ≤ capL) (hB : 0 ≤ capB) (hops : ops.all DRF.opNonneg = true) :
    DRF.floorSumGbps (DRF.runOps (DRF.Scheduler.init capL capB) ops).alloc ≤ capB ∧
    DRF.usedGbps (DRF.runOps (DRF.Scheduler.init capL capB) ops).alloc ≤ capB ∧
    DRF.usedLanes (DRF.runOps (DRF.Scheduler.init capL capB) ops).alloc ≤ capL := by
  have hinit : DRF.Inv (DRF.Scheduler.init capL capB) := by
    refine ⟨fun e he => absurd he (List.not_mem_nil e), ?_, ?_⟩
    · simpa [DRF.Scheduler.init, DRF.usedLanes] using hL
    · simpa [DRF.Scheduler.init, DRF.usedGbps] using hB
  have hinv := DRF.runOps_preserves ops _ hinit hops
  have hcap := DRF.runOps_capacity ops (DRF.Scheduler.init capL capB)
  obtain ⟨hok, hl2, hb2⟩ := hinv
  rw [hcap] at hl2 hb2
  exact ⟨le_trans (DRF.floorSum_le_usedGbps _ hok) hb2, hb2, hl2⟩

theorem C1_pool_floor_invariant_witness :
    DRF.floorSumGbps (DRF.runOps (DRF.Scheduler.init 8 100)
      [DRF.Op.alloc "a" 4 60, DRF.Op.alloc "b" 4 60, DRF.Op.release "a"]).alloc ≤ 100 ∧
    DRF.usedGbps (DRF.runOps (DRF.Scheduler.init 8 100)
      [DRF.Op.alloc "a" 4 60, DRF.Op.alloc "b" 4 60, DRF.Op.release "a"]).alloc ≤ 100 ∧
    DRF.usedLanes (DRF.runOps (DRF.Scheduler.init 8 100)
      [DRF.Op.alloc "a" 4 60, DRF.Op.alloc "b" 4 60, DRF.Op.release "a"]).alloc ≤ 8 :=
  C1_pool_floor_invariant 8 100 _ (by decide) (by decide) (by decide)

/-- C2: a floor-mandatory request that cannot be granted in full is
rejected with `CapacityExceeded` and the pool state is exactly what it
was before the call (atomic rollback).  Proved against the
spec-modelled floor-mandatory path `DRF.allocateFloorMandatory`. -/
theorem C2_floor_mandatory_rejected (s : DRF.Scheduler) (id : String)
    (req : DRF.Grant) (h : DRF.canFit s req = false) :
    DRF.allocateFloorMandatory s id req true =
      (Except.error "CapacityExceeded", s) := by
  simp [DRF.allocateFloorMandatory, h]

theorem C2_floor_mandatory_rejected_witness :
    DRF.allocateFloorMandatory (DRF.Scheduler.init 0 0) "a" ⟨1, 1⟩ true =
      (Except.error "CapacityExceeded", DRF.Scheduler.init 0 0) :=
  C2_floor_mandatory_rejected (DRF.Scheduler.init 0 0) "a" ⟨1, 1⟩
    (by simp [DRF.canFit, DRF.Scheduler.init, DRF.usedLanes, DRF.usedGbps])

namespace Memqosd

theorem lookup_cons {β : Type} (a k : String) (v : β) (t : List (String × β)) :
    ((k, v) :: t).lookup a = if (a == k) = true then some v else t.lookup a := by
  cases h : a == k <;> simp [List.lookup, h]

theorem lookup_cons_eq {β : Type} (k : String) (v : β) (l : List (String × β)) :
    ((k, v) :: l).lookup k = some v := by
  simp [List.lookup]

theorem lookup_filter_ne {β : Type} (l : List (String × β)) (id id2 : String)
    (h : id2 ≠ id) :
    (l.filter (fun p => p.1 ≠ id)).lookup id2 = l.lookup id2 := by
  induction l with
  | nil => rfl
  | cons p t ih =>
      obtain ⟨k, v⟩ := p
      by_cases hk : k = id
      · subst hk
        have hne2 : (id2 == k) = false := by simpa [beq_iff_eq] using h
        have hdrop : (decide ((k, v).1 ≠ k)) = false := by simp
        rw [List.filter_cons, hdrop]
        simp only [Bool.false_eq_true, if_false]
        rw [ih, lookup_cons, hne2]
        simp
      · have hkeep : (decide ((k, v).1 ≠ id)) = true := by simpa using hk
        rw [List.filter_cons, hkeep]
        simp only [if_true]
        rw [lookup_cons, lookup_cons, ih]

theorem allocate_no_attestation (tickets : List (String × Attestd.AttestationResult))
    (now : ℕ) (s : Service) (req : AllocationRequest)
    (h : req.attestationRequired = false) :
    allocate tickets now s req = Except.ok (allocHandle now s req,
      { allocations := ("ffm-" ++ hex4 s.nextID, allocHandle now s req) ::
          s.allocations.filter (fun p => p.1 ≠ "ffm-" ++ hex4 s.nextID)
        nextID := s.nextID + 1 }) := by
  simp [allocate, attestGate, h]

theorem allocate_ok_handle (tickets : List (String × Attestd.AttestationResult))
    (now : ℕ) (s : Service) (req : AllocationRequest)
    (h : FFMHandle) (s2 : Service)
    (hok : allocate tickets now s req = Except.ok (h, s2)) :
    h = allocHandle now s req := by
  unfold allocate at hok
  cases hg : attestGate tickets now req with
  | error e => rw [hg] at hok; exact absurd hok (by simp)
  | ok u =>
      rw [hg] at hok
      simp only [Except.ok.injEq, Prod.mk.injEq] at hok
      exact hok.1.symm

theorem attestGate_missing (tickets : List (String × Attestd.AttestationResult))
    (now : ℕ) (req : AllocationRequest) (hreq : req.attestationRequired = true)
    (ht : req.attestationTicket = "") :
    attestGate tickets now req =
      Except.error "attestation required but no ticket provided" := by
  simp [attestGate, hreq, ht]

theorem attestGate_notfound (tickets : List (String × Attestd.AttestationResult))
    (now : ℕ) (req : AllocationRequest) (hreq : req.attestationRequired = true)
    (ht : req.attestationTicket ≠ "")
    (hlook : tickets.lookup req.attestationTicket = none) :
    attestGate tickets now req =
      Except.error ("attestation verification failed: " ++ "HTTP 404") := by
  simp [attestGate, hreq, ht, verifyAttestation, Attestd.getAttestation, hlook]

theorem attestGate_expired (tickets : List (String × Attestd.AttestationResult))
    (now : ℕ) (req : AllocationRequest) (r : Attestd.AttestationResult)
    (hreq : req.attestationRequired = true) (ht : req.attestationTicket ≠ "")
    (hlook : tickets.lookup req.attestationTicket = some r)
    (hexp : r.expiresAt < now) :
    attestGate tickets now req =
      Except.error "attestation ticket invalid or expired" := by
  simp [attestGate, hreq, ht, verifyAttestation, Attestd.getAttestation, hlook, hexp]

theorem attestGate_invalid (tickets : List (String × Attestd.AttestationResult))
    (now : ℕ) (req : AllocationRequest) (r : Attestd.AttestationResult)
    (hreq : req.attestationRequired = true) (ht : req.attestationTicket ≠ "")
    (hlook : tickets.lookup req.attestationTicket = some r)
    (hexp : ¬r.expiresAt < now) (hv : r.valid = false) :
    attestGate tickets now req =
      Except.error "attestation ticket invalid or expired" := by
  simp [attestGate, hreq, ht, verifyAttestation, Attestd.getAttestation, hlook,
    hexp, hv]

theorem attestGate_valid (tickets : List (String × Attestd.AttestationResult))
    (now : ℕ) (req : AllocationRequest) (r : Attestd.AttestationResult)
    (hreq : req.attestationRequired = true) (ht : req.attestationTicket ≠ "")
    (hlook : tickets.lookup req.attestationTicket = some r)
    (hexp : ¬r.expiresAt < now) (hv : r.valid = true) :
    attestGate tickets now req = Except.ok () := by
  simp [attestGate, hreq, ht, verifyAttestation, Attestd.getAttestation, hlook,
    hexp, hv]

theorem allocate_isOk_iff (tickets : List (String × Attestd.AttestationResult))
    (now : ℕ) (s : Service) (req : AllocationRequest) :
    (∃ h s2, allocate tickets now s req = Except.ok (h, s2)) ↔
      attestGate tickets now req = Except.ok () := by
  unfold allocate
  cases hg : attestGate tickets now req with
  | error e => simp
  | ok u => cases u; simp

theorem attestGate_ok_iff (tickets : List (String × Attestd.AttestationResult))
    (now : ℕ) (req : AllocationRequest) (hreq : req.attestationRequired = true) :
    attestGate tickets now req = Except.ok () ↔
      (req.attestationTicket ≠ "" ∧
        ∃ r, tickets.lookup req.attestationTicket = some r ∧
          r.valid = true ∧ now ≤ r.expiresAt) := by
  by_cases ht : req.attestationTicket = ""
  · rw [attestGate_missing tickets now req hreq ht]
    simp [ht]
  · cases hlook : tickets.lookup req.attestationTicket with
    | none =>
        rw [attestGate_notfound tickets now req hreq ht hlook]
        constructor
        · intro hcontra; exact absurd hcontra (by simp)
        · rintro ⟨-, r, hr, -, -⟩
          exact absurd hr (by simp)
    | some r =>
        by_cases hexp : r.expiresAt < now
        · rw [attestGate_expired tickets now req r hreq ht hlook hexp]
          constructor
          · intro hcontra; exact absurd hcontra (by simp)
          · rintro ⟨-, r2, hr2, -, hle⟩
            obtain rfl : r = r2 := Option.some.inj hr2
            omega
        · cases hv : r.valid with
          | false =>
              rw [attestGate_invalid tickets now req r hreq ht hlook hexp hv]
              constructor
              · intro hcontra; exact absurd hcontra (by simp)
              · rintro ⟨-, r2, hr2, hval, -⟩
                obtain rfl : r = r2 := Option.some.inj hr2
                rw [hv] at hval; exact absurd hval (by simp)
          | true =>
              rw [attestGate_valid tickets now req r hreq ht hlook hexp hv]
              constructor
              · intro _
                exact ⟨ht, r, rfl, hv, by omega⟩
              · intro _; rfl

theorem allocate_error_messages (tickets : List (String × Attestd.AttestationResult))
    (now : ℕ) (s : Service) (req : AllocationRequest) (e : String)
    (he : allocate tickets now s req = Except.error e) :
    e = "attestation required but no ticket provided" ∨
    e = "attestation verification failed: HTTP 404" ∨
    e = "attestation ticket invalid or expired" := by
  have hgate : attestGate tickets now req = Except.error e := by
    unfold allocate at he
    cases hg : attestGate tickets now req with
    | error e2 =>
        rw [hg] at he
        have he2 : e2 = e := by simpa using he
        rw [← he2]
    | ok u => rw [hg] at he; exact absurd he (by simp)
  by_cases hreq : req.attestationRequired = true
  · by_cases ht : req.attestationTicket = ""
    · rw [attestGate_missing tickets now req hreq ht] at hgate
      exact Or.inl (by simpa using hgate.symm)
    · cases hlook : tickets.lookup req.attestationTicket with
      | none =>
          rw [attestGate_notfound tickets now req hreq ht hlook] at hgate
          refine Or.inr (Or.inl ?_)
          have := hgate.symm
          simpa using this
      | some r =>
          by_cases hexp : r.expiresAt < now
          · rw [attestGate_expired tickets now req r hreq ht hlook hexp] at hgate
            exact Or.inr (Or.inr (by simpa using hgate.symm))
          · cases hv : r.valid with
            | false =>
                rw [attestGate_invalid tickets now req r hreq ht hlook hexp hv]
                  at hgate
                exact Or.inr (Or.inr (by simpa using hgate.symm))
            | true =>
                rw [attestGate_valid tickets now req r hreq ht hlook hexp hv]
                  at hgate
                exact absurd hgate (by simp)
  · have : attestGate tickets now req = Except.ok () := by
      have hreq' : req.attestationRequired = false := by
        cases h : req.attestationRequired with
        | false => rfl
        | true => exact absurd h hreq
      simp [attestGate, hreq']
    rw [this] at hgate
    exact absurd hgate (by simp)

end Memqosd


/-- C4: the issued trust level is `high` when both hashes validate and a
PQC signature was required (one is then always produced), `medium` when
both validate without a signature requirement, `low` when exactly one
validates, and `untrusted` when neither does; the ticket's `valid` bit
is the conjunction of the two validations. -/
theorem C4_trust_level_derivation (hashHex : String → String) (now : ℕ)
    (s : Attestd.Service) (req : Attestd.AttestationRequest) :
    (Attestd.attestDevice hashHex now s req).1.trustLevel =
      (if Attestd.validateFirmwareHash req.firmwareHash &&
          Attestd.validateConfigHash req.configHash then
        (if req.requirePQC then "high" else "medium")
       else if Attestd.validateFirmwareHash req.firmwareHash ||
          Attestd.validateConfigHash req.configHash then "low"
       else "untrusted") ∧
    ((Attestd.attestDevice hashHex now s req).1.pqcSignature = "" ↔
      req.requirePQC = false) ∧
    (Attestd.attestDevice hashHex now s req).1.valid =
      (Attestd.validateFirmwareHash req.firmwareHash &&
        Attestd.validateConfigHash req.configHash) := by
  refine ⟨rfl, ?_, rfl⟩
  cases hpqc : req.requirePQC with
  | false => simp [Attestd.attestDevice, hpqc]
  | true =>
      simp only [Attestd.attestDevice, hpqc, if_true]
      constructor
      · intro hcontra
        have hlen := congrArg String.length hcontra
        rw [String.length_append] at hlen
        have h8 : ("pqc-sig-" : String).length = 8 := rfl
        rw [h8] at hlen
        simp at hlen
      · intro hcontra
        exact absurd hcontra (by simp)

/-- C3 (amended): when attestation is required, an allocation succeeds
exactly when a ticket is presented, is found in the attestd store, has
`valid = true`, and the current time is at most `expiresAt` (Go's
`time.Now().After` makes expiry strict, so the ticket is still usable at
`now = expiresAt`); every denial is an attestation error and no
allocation is created (the service state is only produced on success). -/
theorem C3_attestation_gate (tickets : List (String × Attestd.AttestationResult))
    (now : ℕ) (s : Memqosd.Service) (req : Memqosd.AllocationRequest)
    (hreq : req.attestationRequired = true) :
    ((∃ h s2, Memqosd.allocate tickets now s req = Except.ok (h, s2)) ↔
      (req.attestationTicket ≠ "" ∧
        ∃ r, tickets.lookup req.attestationTicket = some r ∧
          r.valid = true ∧ now ≤ r.expiresAt)) ∧
    (∀ e, Memqosd.allocate tickets now s req = Except.error e →
      e = "attestation required but no ticket provided" ∨
      e = "attestation verification failed: HTTP 404" ∨
      e = "attestation ticket invalid or expired") :=
  ⟨(Memqosd.allocate_isOk_iff tickets now s req).trans
      (Memqosd.attestGate_ok_iff tickets now req hreq),
   fun e he => Memqosd.allocate_error_messages tickets now s req e he⟩

theorem C3_attestation_gate_witness :
    ((∃ h s2, Memqosd.allocate [("t1", Fixtures.expiryTicket)] 50
        Memqosd.Service.init Fixtures.attReq = Except.ok (h, s2)) ↔
      (Fixtures.attReq.attestationTicket ≠ "" ∧
        ∃ r, [("t1", Fixtures.expiryTicket)].lookup
            Fixtures.attReq.attestationTicket = some r ∧
          r.valid = true ∧ 50 ≤ r.expiresAt)) ∧
    (∀ e, Memqosd.allocate [("t1", Fixtures.expiryTicket)] 50
        Memqosd.Service.init Fixtures.attReq = Except.error e →
      e = "attestation required but no ticket provided" ∨
      e = "attestation verification failed: HTTP 404" ∨
      e = "attestation ticket invalid or expired") :=
  C3_attestation_gate [("t1", Fixtures.expiryTicket)] 50
    Memqosd.Service.init Fixtures.attReq rfl

/-- C3 counterexample to the claim as stated: the claim demands denial
whenever `now ≥ expiresAt`, but at the boundary `now = expiresAt = 100`
the code accepts the ticket (`time.Now().After(expiresAt)` is false) and
creates the allocation. -/
theorem C3_expiry_boundary_counterexample :
    Memqosd.allocate [("t1", Fixtures.expiryTicket)] 100
        Memqosd.Service.init Fixtures.attReq =
      Except.ok (Fixtures.attHandle,
        ⟨[("ffm-0001", Fixtures.attHandle)], 2⟩) ∧
    Fixtures.expiryTicket.expiresAt = 100 ∧
    Fixtures.expiryTicket.valid = true ∧
    Fixtures.attReq.attestationRequired = true := by
  refine ⟨?_, rfl, rfl, rfl⟩
  rfl

/-- C9: `AdjustLatencyClass` migrates an existing allocation in place:
the result is the same service with the same entry updated — same
identifier, latency class set to the target, moved-page counter bumped,
every other field and every other allocation untouched, and `nextID`
(hence no re-creation) unchanged. -/
theorem C9_adjust_latency_in_place (s : Memqosd.Service) (id target : String)
    (h : Memqosd.FFMHandle) (hfound : s.allocations.lookup id = some h) :
    Memqosd.adjustLatencyClass s id target =
      Except.ok { s with allocations :=
        (id, { h with latencyClass := target,
                      movedPages := (h.movedPages + 1000000) % 2 ^ 64 }) ::
          s.allocations.filter (fun p => p.1 ≠ id) } ∧
    ∀ id2, id2 ≠ id →
      ((id, { h with latencyClass := target,
                     movedPages := (h.movedPages + 1000000) % 2 ^ 64 }) ::
        s.allocations.filter (fun p => p.1 ≠ id)).lookup id2 =
      s.allocations.lookup id2 := by
  constructor
  · simp [Memqosd.adjustLatencyClass, hfound]
  · intro id2 hne
    rw [Memqosd.lookup_cons]
    have hbeq : (id2 == id) = false := by simpa [beq_iff_eq] using hne
    rw [hbeq]
    simp only [Bool.false_eq_true, if_false]
    exact Memqosd.lookup_filter_ne s.allocations id id2 hne

theorem C9_adjust_latency_in_place_witness :
    Memqosd.adjustLatencyClass Fixtures.svc1 "ffm-0001" "T0" =
      Except.ok { Fixtures.svc1 with allocations :=
        ("ffm-0001",
         { Fixtures.sampleHandle with
             latencyClass := "T0",
             movedPages :=
               (Fixtures.sampleHandle.movedPages + 1000000) % 2 ^ 64 }) ::
          Fixtures.svc1.allocations.filter (fun p => p.1 ≠ "ffm-0001") } ∧
    ∀ id2, id2 ≠ "ffm-0001" →
      (("ffm-0001",
        { Fixtures.sampleHandle with
            latencyClass := "T0",
            movedPages :=
              (Fixtures.sampleHandle.movedPages + 1000000) % 2 ^ 64 }) ::
        Fixtures.svc1.allocations.filter (fun p => p.1 ≠ "ffm-0001")).lookup id2 =
      Fixtures.svc1.allocations.lookup id2 :=
  C9_adjust_latency_in_place Fixtures.svc1 "ffm-0001" "T0"
    Fixtures.sampleHandle rfl

/-- C10: every successful `Allocate` records an achieved bandwidth of
`uint64(0.9 * floor)` — modelled exactly as `9 * floor / 10` — and so
does every successful `AdjustBandwidth` for its new floor; for every
nonzero floor this is strictly below the floor. -/
theorem C10_achieved_below_floor :
    (∀ (tickets : List (String × Attestd.AttestationResult)) (now : ℕ)
        (s : Memqosd.Service) (req : Memqosd.AllocationRequest)
        (h : Memqosd.FFMHandle) (s2 : Memqosd.Service),
      Memqosd.allocate tickets now s req = Except.ok (h, s2) →
        h.achievedBandwidth = 9 * req.bandwidthFloor / 10 ∧
        (1 ≤ req.bandwidthFloor →
          h.achievedBandwidth < req.bandwidthFloor)) ∧
    (∀ (s : Memqosd.Service) (id : String) (floorGBs : ℕ)
        (s2 : Memqosd.Service) (h2 : Memqosd.FFMHandle),
      Memqosd.adjustBandwidth s id floorGBs = Except.ok s2 →
      s2.allocations.lookup id = some h2 →
        h2.achievedBandwidth = 9 * floorGBs / 10 ∧
        (1 ≤ floorGBs → h2.achievedBandwidth < floorGBs)) := by
  have hlt : ∀ f : ℕ, 1 ≤ f → 9 * f / 10 < f := by
    intro f hf
    have h10 : 0 < 10 := by norm_num
    exact (Nat.div_lt_iff_lt_mul h10).mpr (by omega)
  constructor
  · intro tickets now s req h s2 hok
    have hh := Memqosd.allocate_ok_handle tickets now s req h s2 hok
    subst hh
    exact ⟨rfl, fun hf => hlt req.bandwidthFloor hf⟩
  · intro s id floorGBs s2 h2 hok hfind
    unfold Memqosd.adjustBandwidth at hok
    cases hlook : s.allocations.lookup id with
    | none => rw [hlook] at hok; exact absurd hok (by simp)
    | some handle =>
        rw [hlook] at hok
        have hs2 := (by simpa using hok :
          ({ s with allocations :=
            (id,
             { handle with
                 bandwidthFloor := floorGBs,
                 achievedBandwidth := Memqosd.achieved90 floorGBs }) ::
              s.allocations.filter (fun p => p.1 ≠ id) } : Memqosd.Service) = s2)
        rw [← hs2] at hfind
        simp only [Memqosd.lookup_cons_eq] at hfind
        obtain rfl : _ = h2 := Option.some.inj hfind
        exact ⟨rfl, fun hf => hlt floorGBs hf⟩

theorem C10_achieved_below_floor_witness :
    (Fixtures.sampleHandle.achievedBandwidth =
        9 * Fixtures.sampleReq.bandwidthFloor / 10 ∧
      (1 ≤ Fixtures.sampleReq.bandwidthFloor →
        Fixtures.sampleHandle.achievedBandwidth <
          Fixtures.sampleReq.bandwidthFloor)) ∧
    Fixtures.sampleHandle.achievedBandwidth = 9 ∧
    Fixtures.sampleReq.bandwidthFloor = 10 := by
  refine ⟨(C10_achieved_below_floor).1 [] 0 Memqosd.Service.init
    Fixtures.sampleReq Fixtures.sampleHandle
    ⟨[("ffm-0001", Fixtures.sampleHandle)], 2⟩ ?_, rfl, rfl⟩
  rfl

namespace Heliopass

theorem calLoop_conv_true (rng : ℕ → ℝ) (t : ℝ) (fuel : ℕ) (ber : ℝ)
    (iters : ℕ) (bias : List ℝ) (k : ℕ) :
    calLoop rng t fuel ber true iters bias k = ⟨ber, true, iters, bias, k⟩ := by
  cases fuel <;> simp [calLoop]

theorem berLoop_conv_true (t : ℝ) (fuel : ℕ) (ber : ℝ) (iters : ℕ) :
    berLoop t fuel ber true iters = (ber, true, iters) := by
  cases fuel <;> simp [berLoop]

theorem berLoop_step (t : ℝ) (fuel : ℕ) (ber : ℝ) (iters : ℕ) :
    berLoop t (fuel + 1) ber false iters =
      berLoop t fuel (berStep t ber (iters + 1))
        (if berStep t ber (iters + 1) ≤ t * 1.1 then true else false)
        (iters + 1) := rfl

theorem calLoop_proj (rng : ℕ → ℝ) (t : ℝ) :
    ∀ (fuel : ℕ) (ber : ℝ) (conv : Bool) (iters : ℕ) (bias : List ℝ) (k : ℕ),
      berProj (calLoop rng t fuel ber conv iters bias k) =
        berLoop t fuel ber conv iters := by
  intro fuel
  induction fuel with
  | zero => intro ber conv iters bias k; rfl
  | succ f ih =>
      intro ber conv iters bias k
      cases conv with
      | true => rw [calLoop_conv_true, berLoop_conv_true]; rfl
      | false =>
          rw [berLoop_step]
          show berProj (calLoop rng t (f + 1) ber false iters bias k) = _
          simp only [calLoop, Bool.false_eq_true, if_false]
          by_cases hr : rng k < 0.1
          · rw [if_pos hr]; exact ih _ _ _ _ _
          · rw [if_neg hr]; exact ih _ _ _ _ _

theorem berLoop_iterations_le (t : ℝ) :
    ∀ (fuel : ℕ) (ber : ℝ) (conv : Bool) (iters : ℕ),
      (berLoop t fuel ber conv iters).2.2 ≤ iters + fuel := by
  intro fuel
  induction fuel with
  | zero => intro ber conv iters; simp [berLoop]
  | succ f ih =>
      intro ber conv iters
      cases conv with
      | true =>
          rw [berLoop_conv_true]
          exact Nat.le_add_right iters (f + 1)
      | false =>
          rw [berLoop_step]
          exact le_trans (ih _ _ _) (by omega)

theorem berLoop_true_final (t : ℝ) :
    ∀ (fuel : ℕ) (ber : ℝ) (iters : ℕ),
      (berLoop t fuel ber false iters).2.1 = true →
      (berLoop t fuel ber false iters).1 ≤ t * 1.1 := by
  intro fuel
  induction fuel with
  | zero => intro ber iters h; exact absurd h (by simp [berLoop])
  | succ f ih =>
      intro ber iters h
      by_cases hc : berStep t ber (iters + 1) ≤ t * 1.1
      · have hconv2 : (if berStep t ber (iters + 1) ≤ t * 1.1 then true
            else false) = true := if_pos hc
        rw [berLoop_step, hconv2, berLoop_conv_true]
        exact hc
      · have hconv2 : (if berStep t ber (iters + 1) ≤ t * 1.1 then true
            else false) = false := if_neg hc
        rw [berLoop_step, hconv2] at h ⊢
        exact ih _ _ h

theorem berLoop_false_final (t : ℝ) :
    ∀ (fuel : ℕ) (ber : ℝ) (iters : ℕ),
      (berLoop t (fuel + 1) ber false iters).2.1 = false →
      ¬(berLoop t (fuel + 1) ber false iters).1 ≤ t * 1.1 := by
  intro fuel
  induction fuel with
  | zero =>
      intro ber iters h
      by_cases hc : berStep t ber (iters + 1) ≤ t * 1.1
      · have hconv2 : (if berStep t ber (iters + 1) ≤ t * 1.1 then true
            else false) = true := if_pos hc
        rw [berLoop_step, hconv2, berLoop_conv_true] at h
        simp at h
      · have hconv2 : (if berStep t ber (iters + 1) ≤ t * 1.1 then true
            else false) = false := if_neg hc
        rw [berLoop_step, hconv2]
        exact hc
  | succ f ih =>
      intro ber iters h
      by_cases hc : berStep t ber (iters + 1) ≤ t * 1.1
      · have hconv2 : (if berStep t ber (iters + 1) ≤ t * 1.1 then true
            else false) = true := if_pos hc
        rw [berLoop_step, hconv2, berLoop_conv_true] at h
        simp at h
      · have hconv2 : (if berStep t ber (iters + 1) ≤ t * 1.1 then true
            else false) = false := if_neg hc
        rw [berLoop_step, hconv2] at h ⊢
        exact ih _ _ h

theorem berLoop_gap (t : ℝ) :
    ∀ (fuel : ℕ) (ber : ℝ) (iters : ℕ),
      (berLoop t fuel ber false iters).2.1 = false →
      (berLoop t fuel ber false iters).1 - t =
        (ber - t) * Real.exp (-(triSum iters fuel : ℝ) * 0.2) := by
  intro fuel
  induction fuel with
  | zero =>
      intro ber iters h
      simp [berLoop, triSum]
  | succ f ih =>
      intro ber iters h
      by_cases hc : berStep t ber (iters + 1) ≤ t * 1.1
      · have hconv2 : (if berStep t ber (iters + 1) ≤ t * 1.1 then true
            else false) = true := if_pos hc
        rw [berLoop_step, hconv2, berLoop_conv_true] at h
        simp at h
      · have hconv2 : (if berStep t ber (iters + 1) ≤ t * 1.1 then true
            else false) = false := if_neg hc
        rw [berLoop_step, hconv2] at h ⊢
        have hrec := ih (berStep t ber (iters + 1)) (iters + 1) h
        rw [hrec]
        have hstep : berStep t ber (iters + 1) - t =
            (ber - t) * Real.exp (-((iters + 1 : ℕ) : ℝ) * 0.2) := by
          rw [berStep]; ring
        rw [hstep, mul_assoc, ← Real.exp_add]
        have harg : -((iters + 1 : ℕ) : ℝ) * 0.2 +
            -(triSum (iters + 1) f : ℝ) * 0.2 =
            -(triSum iters (f + 1) : ℝ) * 0.2 := by
          have htri : (triSum iters (f + 1) : ℕ) =
              (iters + 1) + triSum (iters + 1) f := rfl
          rw [htri]
          push_cast
          ring
        rw [harg]

theorem berLoop_zero_target :
    ∀ (fuel : ℕ) (b : ℝ) (iters : ℕ), 0 < b →
      (berLoop 0 fuel b false iters).2.1 = false := by
  intro fuel
  induction fuel with
  | zero => intro b iters hb; simp [berLoop]
  | succ f ih =>
      intro b iters hb
      have hpos : 0 < berStep 0 b (iters + 1) := by
        rw [berStep]
        have := Real.exp_pos (-((iters + 1 : ℕ) : ℝ) * 0.2)
        nlinarith
      have hc : ¬berStep 0 b (iters + 1) ≤ (0 : ℝ) * 1.1 := by
        rw [zero_mul]
        exact not_le.mpr hpos
      have hconv2 : (if berStep 0 b (iters + 1) ≤ (0 : ℝ) * 1.1 then true
          else false) = false := if_neg hc
      rw [berLoop_step, hconv2]
      exact ih _ _ hpos

theorem calibrate_components (rng : ℕ → ℝ) (elapsedNs : ℕ)
    (req : CalibrationRequest) (p : AmbientProfile)
    (hp : profiles.lookup req.ambientProfile = some p) :
    respIsOk (calibrate rng elapsedNs req) = true ∧
    respConverged (calibrate rng elapsedNs req) =
      (berLoop req.targetBER 20 req.currentBER false 0).2.1 ∧
    respFinalBER (calibrate rng elapsedNs req) =
      (berLoop req.targetBER 20 req.currentBER false 0).1 ∧
    respStatus (calibrate rng elapsedNs req) =
      (if (berLoop req.targetBER 20 req.currentBER false 0).2.1 = true
       then "converged" else "partial_convergence") := by
  unfold calibrate
  rw [hp]
  have hproj := calLoop_proj rng req.targetBER 20 req.currentBER false 0
    ((List.range (if req.lambdaCount = 0 then 8 else req.lambdaCount)).map
      (fun j => 1.2 + (rng j - 0.5) * 0.2))
    (3 * (if req.lambdaCount = 0 then 8 else req.lambdaCount))
  have hcv : (calLoop rng req.targetBER 20 req.currentBER false 0
      ((List.range (if req.lambdaCount = 0 then 8 else req.lambdaCount)).map
        (fun j => 1.2 + (rng j - 0.5) * 0.2))
      (3 * (if req.lambdaCount = 0 then 8 else req.lambdaCount))).converged =
      (berLoop req.targetBER 20 req.currentBER false 0).2.1 :=
    congrArg (fun q => q.2.1) hproj
  have hfb : (calLoop rng req.targetBER 20 req.currentBER false 0
      ((List.range (if req.lambdaCount = 0 then 8 else req.lambdaCount)).map
        (fun j => 1.2 + (rng j - 0.5) * 0.2))
      (3 * (if req.lambdaCount = 0 then 8 else req.lambdaCount))).ber =
      (berLoop req.targetBER 20 req.currentBER false 0).1 :=
    congrArg (fun q => q.1) hproj
  refine ⟨rfl, ?_, ?_, ?_⟩
  · simpa only [respConverged] using hcv
  · simpa only [respFinalBER] using hfb
  · show (if _ = true then "converged" else "partial_convergence") = _
    rw [hcv]

end Heliopass

theorem scenario3_berLoop :
    (Heliopass.berLoop (1e-12 : ℝ) 20 (1e-9 : ℝ) false 0).2.1 = true ∧
    (Heliopass.berLoop (1e-12 : ℝ) 20 (1e-9 : ℝ) false 0).1 ≤ 1.1e-12 := by
  have h2 : (2 : ℝ) ≤ Real.exp 1 := by
    have := Real.add_one_le_exp (1 : ℝ)
    linarith
  have hexp42 : (2 : ℝ) ^ (42 : ℕ) ≤ Real.exp 42 := by
    calc (2 : ℝ) ^ (42 : ℕ) ≤ (Real.exp 1) ^ (42 : ℕ) :=
          pow_le_pow_left₀ (by norm_num) h2 42
    _ = Real.exp ((42 : ℕ) * 1) := (Real.exp_nat_mul 1 42).symm
    _ = Real.exp 42 := by norm_num
  have hconv : (Heliopass.berLoop (1e-12 : ℝ) 20 (1e-9 : ℝ) false 0).2.1 = true := by
    cases hcv : (Heliopass.berLoop (1e-12 : ℝ) 20 (1e-9 : ℝ) false 0).2.1 with
    | true => rfl
    | false =>
        exfalso
        have hgap := Heliopass.berLoop_gap (1e-12 : ℝ) 20 (1e-9 : ℝ) 0 hcv
        have hfail := Heliopass.berLoop_false_final (1e-12 : ℝ) 19 (1e-9 : ℝ) 0 hcv
        have htri : (Heliopass.triSum 0 20 : ℕ) = 210 := rfl
        rw [htri] at hgap
        have h420 : (-(210 : ℝ) * 0.2) = -42 := by norm_num
        rw [show ((210 : ℕ) : ℝ) = (210 : ℝ) from by norm_num, h420] at hgap
        have hexpneg : Real.exp (-42 : ℝ) ≤ ((2 : ℝ) ^ (42 : ℕ))⁻¹ := by
          rw [Real.exp_neg]
          exact inv_anti₀ (by positivity) hexp42
        have hfinal : (Heliopass.berLoop (1e-12 : ℝ) 20 (1e-9 : ℝ) false 0).1 -
            1e-12 ≤ (1e-9 - 1e-12) * ((2 : ℝ) ^ (42 : ℕ))⁻¹ := by
          rw [hgap]
          exact mul_le_mul_of_nonneg_left hexpneg (by norm_num)
        have h42 : (4e12 : ℝ) ≤ (2 : ℝ) ^ (42 : ℕ) := by norm_num
        have hsmall : (1e-9 - 1e-12) * ((2 : ℝ) ^ (42 : ℕ))⁻¹ ≤ (1e-13 : ℝ) := by
          calc (1e-9 - 1e-12) * ((2 : ℝ) ^ (42 : ℕ))⁻¹
              ≤ (1e-9 - 1e-12) * (4e12 : ℝ)⁻¹ := by
                refine mul_le_mul_of_nonneg_left ?_ (by norm_num)
                exact inv_anti₀ (by norm_num) h42
          _ ≤ (1e-13 : ℝ) := by norm_num
        have hle : (Heliopass.berLoop (1e-12 : ℝ) 20 (1e-9 : ℝ) false 0).1 ≤
            (1e-12 : ℝ) * 1.1 := by nlinarith
        exact hfail hle
  refine ⟨hconv, ?_⟩
  have := Heliopass.berLoop_true_final (1e-12 : ℝ) 20 (1e-9 : ℝ) 0 hconv
  calc (Heliopass.berLoop (1e-12 : ℝ) 20 (1e-9 : ℝ) false 0).1
      ≤ (1e-12 : ℝ) * 1.1 := this
  _ ≤ (1.1e-12 : ℝ) := by norm_num

/-- C5: the calibration loop runs at most 20 iterations; iteration `i`
updates the BER to `targetBER + (currentBER − targetBER) · e^(−0.2·i)`
(the `berStep` equation, with the loop advancing by `berStep` at index
`iterations + 1`); and after a full 20-iteration budget the loop reports
convergence exactly when the final BER is ≤ 1.1 × targetBER. -/
theorem C5_calibration_loop_spec (rng : ℕ → ℝ) (t ber : ℝ) (bias : List ℝ)
    (k : ℕ) :
    (Heliopass.calLoop rng t 20 ber false 0 bias k).iterations ≤ 20 ∧
    ((Heliopass.calLoop rng t 20 ber false 0 bias k).converged = true ↔
      (Heliopass.calLoop rng t 20 ber false 0 bias k).ber ≤ t * 1.1) ∧
    (∀ (b : ℝ) (i : ℕ), Heliopass.berStep t b i =
      t + (b - t) * Real.exp (-(i : ℝ) * 0.2)) ∧
    (∀ (fuel iters : ℕ) (b : ℝ),
      Heliopass.berLoop t (fuel + 1) b false iters =
        Heliopass.berLoop t fuel (Heliopass.berStep t b (iters + 1))
          (if Heliopass.berStep t b (iters + 1) ≤ t * 1.1 then true else false)
          (iters + 1)) := by
  have hproj := Heliopass.calLoop_proj rng t 20 ber false 0 bias k
  have hiter : (Heliopass.calLoop rng t 20 ber false 0 bias k).iterations =
      (Heliopass.berLoop t 20 ber false 0).2.2 :=
    congrArg (fun q => q.2.2) hproj
  have hconv : (Heliopass.calLoop rng t 20 ber false 0 bias k).converged =
      (Heliopass.berLoop t 20 ber false 0).2.1 :=
    congrArg (fun q => q.2.1) hproj
  have hber : (Heliopass.calLoop rng t 20 ber false 0 bias k).ber =
      (Heliopass.berLoop t 20 ber false 0).1 :=
    congrArg (fun q => q.1) hproj
  refine ⟨?_, ?_, fun b i => rfl, fun fuel iters b => Heliopass.berLoop_step t fuel b iters⟩
  · rw [hiter]
    simpa using Heliopass.berLoop_iterations_le t 20 ber false 0
  · rw [hconv, hber]
    constructor
    · exact Heliopass.berLoop_true_final t 20 ber 0
    · intro hle
      cases hcv : (Heliopass.berLoop t 20 ber false 0).2.1 with
      | true => rfl
      | false => exact absurd hle (Heliopass.berLoop_false_final t 19 ber 0 hcv)

/-- C6: calibrating with `targetBER = 1e-12` from `currentBER = 1e-9`
under the 20-iteration budget converges, with a final BER of at most
`1.1e-12`, for every random stream and elapsed time. -/
theorem C6_scenario3_converges (rng : ℕ → ℝ) (elapsedNs : ℕ) :
    Heliopass.respConverged
        (Heliopass.calibrate rng elapsedNs Heliopass.scenario3Req) = true ∧
    Heliopass.respFinalBER
        (Heliopass.calibrate rng elapsedNs Heliopass.scenario3Req) ≤ 1.1e-12 := by
  obtain ⟨-, hcv, hfb, -⟩ := Heliopass.calibrate_components rng elapsedNs
    Heliopass.scenario3Req Heliopass.labDefault rfl
  obtain ⟨hc, hb⟩ := scenario3_berLoop
  constructor
  · rw [hcv]
    exact hc
  · rw [hfb]
    exact hb

/-- C7: the BER trajectory of the calibration loop (final BER, converged
flag, iteration count) is independent of the random stream, the bias
slice and the stream position — the random bias perturbation does not
touch it — and each update shrinks (weakly) the gap `|currentBER −
targetBER|`. -/
theorem C7_deterministic_monotone (rng1 rng2 : ℕ → ℝ) (t ber : ℝ)
    (conv : Bool) (fuel iters k1 k2 : ℕ) (bias1 bias2 : List ℝ) :
    Heliopass.berProj (Heliopass.calLoop rng1 t fuel ber conv iters bias1 k1) =
      Heliopass.berProj (Heliopass.calLoop rng2 t fuel ber conv iters bias2 k2) ∧
    ∀ (b : ℝ) (i : ℕ), |Heliopass.berStep t b i - t| ≤ |b - t| := by
  constructor
  · rw [Heliopass.calLoop_proj, Heliopass.calLoop_proj]
  · intro b i
    have hstep : Heliopass.berStep t b i - t =
        (b - t) * Real.exp (-(i : ℝ) * 0.2) := by
      rw [Heliopass.berStep]; ring
    rw [hstep, abs_mul]
    have hexp1 : Real.exp (-(i : ℝ) * 0.2) ≤ 1 := by
      rw [Real.exp_le_one_iff]
      have : (0 : ℝ) ≤ (i : ℝ) := Nat.cast_nonneg i
      nlinarith
    rw [abs_of_pos (Real.exp_pos _)]
    exact mul_le_of_le_one_right (abs_nonneg _) hexp1

/-- C8: when the 20-iteration budget ends without reaching the 1.1 ×
targetBER tolerance, `Calibrate` still returns a normal (non-error)
response whose status is `partial_convergence`, with `converged = false`
and the BER the loop actually achieved. -/
theorem C8_partial_convergence_reported (rng : ℕ → ℝ) (elapsedNs : ℕ)
    (req : Heliopass.CalibrationRequest) (p : Heliopass.AmbientProfile)
    (hp : Heliopass.profiles.lookup req.ambientProfile = some p)
    (hnc : (Heliopass.berLoop req.targetBER 20 req.currentBER false 0).2.1 =
      false) :
    Heliopass.respIsOk (Heliopass.calibrate rng elapsedNs req) = true ∧
    Heliopass.respStatus (Heliopass.calibrate rng elapsedNs req) =
      "partial_convergence" ∧
    Heliopass.respConverged (Heliopass.calibrate rng elapsedNs req) = false ∧
    Heliopass.respFinalBER (Heliopass.calibrate rng elapsedNs req) =
      (Heliopass.berLoop req.targetBER 20 req.currentBER false 0).1 := by
  obtain ⟨hok, hcv, hfb, hst⟩ := Heliopass.calibrate_components rng elapsedNs
    req p hp
  refine ⟨hok, ?_, ?_, hfb⟩
  · rw [hst, hnc]
    simp
  · rw [hcv, hnc]

theorem C8_partial_convergence_reported_witness :
    Heliopass.respIsOk
        (Heliopass.calibrate (fun _ => 0) 0 Heliopass.zeroTargetReq) = true ∧
    Heliopass.respStatus
        (Heliopass.calibrate (fun _ => 0) 0 Heliopass.zeroTargetReq) =
      "partial_convergence" ∧
    Heliopass.respConverged
        (Heliopass.calibrate (fun _ => 0) 0 Heliopass.zeroTargetReq) = false ∧
    Heliopass.respFinalBER
        (Heliopass.calibrate (fun _ => 0) 0 Heliopass.zeroTargetReq) =
      (Heliopass.berLoop Heliopass.zeroTargetReq.targetBER 20
        Heliopass.zeroTargetReq.currentBER false 0).1 :=
  C8_partial_convergence_reported (fun _ => 0) 0 Heliopass.zeroTargetReq
    Heliopass.labDefault rfl
    (Heliopass.berLoop_zero_target 20 1 0 one_pos)
